import Mathlib

/-!
Verification development for the mgcpy time-series independence-testing core:
the HHG rank-concordance statistic (`hhg.py`), the time-series wrapper
(`ts_abstract_class.py`, class `TimeSeriesIndependenceTest`) and the MGC
time-series lag test (`mgs_ts.py`, class `MGC_TS`).

Matrices are embedded as entry functions `ℕ → ℕ → ℚ` together with explicit
row/column counts (`DataMat`); numpy float arithmetic is idealised as exact
rational arithmetic.  Randomness is made explicit: every random draw of the
source (block-start offsets for the block bootstrap) is an input of the
embedded function, and the support of the source's random generator is
captured by a predicate on that input.  Fallible code returns `Except`/`Option`.
-/

namespace Mgc

/-- An entry function for a matrix; sizes are carried separately. -/
abbrev Mat := ℕ → ℕ → ℚ

/-- A caller-supplied matrix: `rows × cols` with entries `entry i j`. -/
structure DataMat where
  rows : ℕ
  cols : ℕ
  entry : Mat

/-- Keys appearing in the metadata dictionaries of the source. -/
inductive MKey where
  | optimal_lag
  | dependence_by_lag
  | optimal_scale
  | null_distribution
  | test_stats_null
  | dist_mtx_X
  | dist_mtx_Y
deriving DecidableEq

/-- Values stored in the metadata dictionaries of the source. -/
inductive MetaVal where
  | nat (k : ℕ)
  | q (x : ℚ)
  | listQ (xs : List ℚ)
  | mat (m : List (List ℚ))
  | pair (a b : ℕ)
deriving DecidableEq

/-- Errors raised by the source (assertion failure on mismatched sample
counts, the `max_lag` bound, the fast-mode subsample bound). -/
inductive TSErr where
  | shapeMismatch
  | invalidLag
  | insufficientSubsample
deriving DecidableEq

/-- The source's `matrix.diagonal()**2` summed: `Σ_{i<rows} entry i i ^ 2`. -/
def diagSq (m : DataMat) : ℚ :=
  ((List.range m.rows).map (fun i => (m.entry i i) ^ 2)).sum

/-- Detection used by `hhg.py` lines 50/52 (and, per the spec, by the
`compute_distance` utility): a matrix is treated as an already-computed
distance matrix iff it is square and the sum of squares of its diagonal is
not positive (equivalently, zero). -/
def isDistMtx (m : DataMat) : Bool :=
  m.rows == m.cols && !(decide (0 < diagSq m))

/-- Modelled from the spec: the `compute_distance` utility
(`mgcpy/independence_tests/utils/compute_distance_matrix.py`, not under
`src/`) passes an already-square zero-diagonal matrix through unchanged and
otherwise applies the injected distance function (spec §4.1). -/
def toDistance (cdm : DataMat → DataMat) (m : DataMat) : DataMat :=
  if isDistMtx m then m else cdm m

/-- The injected distance function maps an `n×p` matrix to an `n×n`
matrix (spec §4.1); for the theorems we only need that it preserves the
sample count and returns a square matrix. -/
def GoodCDM (cdm : DataMat → DataMat) : Prop :=
  ∀ m, (cdm m).rows = m.rows ∧ (cdm m).cols = m.rows

/-- Row count is preserved by the distance transform under `GoodCDM`. -/
theorem toDistance_rows (cdm : DataMat → DataMat) (h : GoodCDM cdm) (m : DataMat) :
    (toDistance cdm m).rows = m.rows := by
  unfold toDistance
  split
  · rfl
  · exact (h m).1

section HHG

/-- Indicator `tmp1` of `hhg.py` line 61 at index `k`: `dist_mtx_X[i, k] <= dist_mtx_X[i, j]`,
as the 0/1 integer numpy uses in the products of lines 63-66. -/
def hhgInd (D : Mat) (i j k : ℕ) : ℤ :=
  if D i k ≤ D i j then 1 else 0

/-- Contingency cell `t11` (line 63): `np.sum(tmp1 * tmp2) - 2`. -/
def hhgT11 (n : ℕ) (DX DY : Mat) (i j : ℕ) : ℤ :=
  ((List.range n).map (fun k => hhgInd DX i j k * hhgInd DY i j k)).sum - 2

/-- Contingency cell `t12` (line 64): `np.sum(tmp1 * (1-tmp2))`. -/
def hhgT12 (n : ℕ) (DX DY : Mat) (i j : ℕ) : ℤ :=
  ((List.range n).map (fun k => hhgInd DX i j k * (1 - hhgInd DY i j k))).sum

/-- Contingency cell `t21` (line 65): `np.sum((1-tmp1) * tmp2)`. -/
def hhgT21 (n : ℕ) (DX DY : Mat) (i j : ℕ) : ℤ :=
  ((List.range n).map (fun k => (1 - hhgInd DX i j k) * hhgInd DY i j k)).sum

/-- Contingency cell `t22` (line 66): `np.sum((1-tmp1) * (1-tmp2))`. -/
def hhgT22 (n : ℕ) (DX DY : Mat) (i j : ℕ) : ℤ :=
  ((List.range n).map (fun k => (1 - hhgInd DX i j k) * (1 - hhgInd DY i j k))).sum

/-- Entry `S[i, j]` of `hhg.py` lines 58-70: zero on the diagonal and when
the denominator is not positive, else the chi-squared-style contribution. -/
def hhgS (n : ℕ) (DX DY : Mat) (i j : ℕ) : ℚ :=
  if i = j then 0
  else
    let t11 := hhgT11 n DX DY i j
    let t12 := hhgT12 n DX DY i j
    let t21 := hhgT21 n DX DY i j
    let t22 := hhgT22 n DX DY i j
    let denom := (t11 + t12) * (t21 + t22) * (t11 + t21) * (t12 + t22)
    if 0 < denom then ((n : ℚ) - 2) * ((t12 * t21 - t11 * t22 : ℤ) : ℚ) ^ 2 / (denom : ℚ)
    else 0

/-- Statistic `corr = np.sum(S)` of `hhg.py` line 71. -/
def hhgStat (n : ℕ) (DX DY : Mat) : ℚ :=
  ((List.range n).map (fun i => ((List.range n).map (fun j => hhgS n DX DY i j)).sum)).sum

/-- Method `HHG.test_statistic` (`hhg.py` lines 49-77), including the input
detection of lines 50-53.  When an input is detected as an already-computed
distance matrix the corresponding local variable `dist_mtx_X` / `dist_mtx_Y`
is never assigned, and the later reads (line 55, resp. line 62 inside the
loop, executed whenever `n > 0`) raise `UnboundLocalError`; that crash is
modelled as `none`. -/
def hhgTestStatistic (cdm : DataMat → DataMat) (X Y : DataMat) :
    Option (ℚ × List (MKey × MetaVal)) :=
  if isDistMtx X then none
  else
    let DX := cdm X
    if isDistMtx Y then (if DX.rows = 0 then some (0, []) else none)
    else some (hhgStat DX.rows DX.entry (cdm Y).entry, [])

end HHG

section TSWrapper

/-- Ceiling square root `int(np.ceil(np.sqrt(n)))`: the least `b` with `n ≤ b*b`. -/
def ceilSqrt (n : ℕ) : ℕ :=
  if Nat.sqrt n * Nat.sqrt n = n then Nat.sqrt n else Nat.sqrt n + 1

/-- Configuration fixed at construction of `TimeSeriesIndependenceTest`
(`ts_abstract_class.py` lines 20-44): the `which_test` name and `max_lag`. -/
structure TSConfig where
  whichTest : String
  maxLag : ℕ

/-- The injected base test object: given the sample count and the two
distance-matrix entry functions, produce `(statistic, metadata)`.  The
wrapper (`ts_abstract_class.py`) is an abstract class and treats its
`test_obj` as an arbitrary independence test. -/
abbrev BaseStat := ℕ → Mat → Mat → ℚ × List (MKey × MetaVal)

/-- Method `TimeSeriesIndependenceTest._validate_input` (`ts_abstract_class.py`
lines 55-102): assert equal sample counts, raise `ValueError` when
`M >= n - 4`, transform both inputs through `compute_distance`, default the
block size to `ceil(sqrt(n))`, and return the pair of distance matrices
together with block size, max lag and sample count.  (The 1-D reshape of
lines 93-96 is a no-op in this embedding, whose inputs are always 2-D.) -/
def validateInput (cdm : DataMat → DataMat) (cfg : TSConfig)
    (X Y : DataMat) (blockSize : Option ℕ) :
    Except TSErr (DataMat × DataMat × ℕ × ℕ × ℕ) :=
  if X.rows ≠ Y.rows then .error .shapeMismatch
  else
    let n := X.rows
    if n - 4 ≤ cfg.maxLag then .error .invalidLag
    else
      .ok (toDistance cdm X, toDistance cdm Y, blockSize.getD (ceilSqrt n), cfg.maxLag, n)

/-- Submatrix `matrix_X[j:n, j:n]` as an entry function. -/
def subMat (D : Mat) (j : ℕ) : Mat := fun a b => D (a + j) (b + j)

/-- The per-lag contribution `dependence_by_lag[j]` of
`ts_abstract_class.py` lines 139-144: `max(0, stat)` at lag 0 and
`(n-j) * max(0, stat_j) / n` at lag `j ≥ 1`, where `stat_j` is the base
statistic on `X[j:n, j:n]` and `Y[0:n-j, 0:n-j]`. -/
def lagStat (base : BaseStat) (n : ℕ) (DX DY : Mat) (j : ℕ) : ℚ :=
  if j = 0 then max 0 (base n DX DY).1
  else ((n : ℚ) - (j : ℚ)) * max 0 (base (n - j) (subMat DX j) DY).1 / (n : ℚ)

/-- The `dependence_by_lag` array (length `M+1`). -/
def depByLag (base : BaseStat) (n M : ℕ) (DX DY : Mat) : List ℚ :=
  (List.range (M + 1)).map (lagStat base n DX DY)

/-- The `optimal_lag` loop of `ts_abstract_class.py` lines 134-146: start
at lag 0 and replace the current optimum by `j` exactly when the lag-`j`
contribution is strictly greater. -/
def argmaxQ (g : ℕ → ℚ) (M : ℕ) : ℕ :=
  (List.range (M + 1)).foldl (fun cur j => if g cur < g j then j else cur) 0

/-- Body of `TimeSeriesIndependenceTest.test_statistic`
(`ts_abstract_class.py` lines 128-154) after validation: the per-lag
contributions, their argmax (ties to the smaller lag), the total statistic
`np.sum(dependence_by_lag)` and the metadata dictionary (with
`optimal_scale` propagated from the winning lag for the `mgcx` variant). -/
def wrapperCore (base : BaseStat) (cfg : TSConfig) (n M : ℕ) (DX DY : Mat) :
    ℚ × List (MKey × MetaVal) :=
  let g := lagStat base n DX DY
  let dep := depByLag base n M DX DY
  let L := argmaxQ g M
  let md := [(MKey.optimal_lag, MetaVal.nat L), (MKey.dependence_by_lag, MetaVal.listQ dep)]
  let md :=
    if cfg.whichTest = "mgcx" then
      let winner := if L = 0 then base n DX DY else base (n - L) (subMat DX L) DY
      md ++ [(MKey.optimal_scale, (List.lookup MKey.optimal_scale winner.2).getD (MetaVal.nat 0))]
    else md
  (dep.sum, md)

/-- Method `TimeSeriesIndependenceTest.test_statistic` (`ts_abstract_class.py`
lines 104-154): validate the inputs, then compute the lag-aggregated
statistic and its metadata. -/
def wrapperTestStatistic (base : BaseStat) (cdm : DataMat → DataMat)
    (cfg : TSConfig) (X Y : DataMat) : Except TSErr (ℚ × List (MKey × MetaVal)) :=
  match validateInput cdm cfg X Y none with
  | .error e => .error e
  | .ok (DX, DY, _, M, n) => .ok (wrapperCore base cfg n M DX.entry DY.entry)

/-- Concatenation `np.r_[[np.arange(t, t + block_size) for t in starts]].flatten()`. -/
def concatRuns (bs : ℕ) : List ℕ → List ℕ
  | [] => []
  | t :: ts => (List.range bs).map (t + ·) ++ concatRuns bs ts

/-- The wrapper's permuted index sequence (`ts_abstract_class.py` lines
200-201): concatenate the runs of `block_size` consecutive indices starting
at each drawn offset, truncate to length `n`, and reduce modulo `n`. -/
def buildPermIdx (n bs : ℕ) (starts : List ℕ) : List ℕ :=
  ((concatRuns bs starts).take n).map (· % n)

/-- Permutation `matrix_Y[np.ix_(permuted_indices, permuted_indices)]`: the same index
sequence applied to both rows and columns. -/
def permuteMat (Y : Mat) (idx : List ℕ) : Mat :=
  fun a b => Y (idx.getD a 0) (idx.getD b 0)

/-- Sequential fail-fast mapping over `Except` (the source's replicate map:
results are collected in replicate order and any exception aborts the whole
computation, spec §7). -/
def exceptMap (f : α → Except ε β) : List α → Except ε (List β)
  | [] => .ok []
  | a :: l =>
    match f a with
    | .error e => .error e
    | .ok b =>
      match exceptMap f l with
      | .error e => .error e
      | .ok bs => .ok (b :: bs)

/-- Support of `np.random.choice(n, n // block_size + 1)` used by the
wrapper's replicate workers (`ts_abstract_class.py` line 200): a list of
`n // block_size + 1` offsets, each in `[0, n)`. -/
def wrapperDraw (n bs : ℕ) (s : List ℕ) : Prop :=
  s.length = n / bs + 1 ∧ ∀ t ∈ s, t < n

/-- Support of `np.random.permutation((n // block_size) + 1)` used by
`MGC_TS.p_value` (`mgs_ts.py` line 193): a permutation of
`0, 1, ..., n // block_size`. -/
def mgcTsDraw (n bs : ℕ) (s : List ℕ) : Prop :=
  s.Perm (List.range (n / bs + 1))

/-- The block-start draw exactly as the spec describes it:
`ceil(n/block_size) + 1` offsets, each drawn from `[0, n)`. -/
def claimDraw (n bs : ℕ) (s : List ℕ) : Prop :=
  s.length = (n + bs - 1) / bs + 1 ∧ ∀ t ∈ s, t < n

/-- Method `TimeSeriesIndependenceTest.p_value`, exact/block-permutation mode
(`ts_abstract_class.py` lines 192-215): validate, compute the observed
statistic, recompute the wrapper statistic on `(X, permuted Y)` for each
replicate draw, and return the fraction of null statistics strictly greater
than the observed one, replaced by `1/replication_factor` when that
fraction is zero.  `draws` lists the block-start offsets of each replicate;
the replication factor is `draws.length`. -/
def wrapperPValueExact (base : BaseStat) (cdm : DataMat → DataMat)
    (cfg : TSConfig) (X Y : DataMat) (blockSize : Option ℕ)
    (draws : List (List ℕ)) : Except TSErr (ℚ × List (MKey × MetaVal)) :=
  match validateInput cdm cfg X Y blockSize with
  | .error e => .error e
  | .ok (DX, DY, bs, _, n) =>
    match wrapperTestStatistic base cdm cfg DX DY with
    | .error e => .error e
    | .ok (obs, _) =>
      match exceptMap (fun s =>
          match wrapperTestStatistic base cdm cfg DX
              ⟨n, n, permuteMat DY.entry (buildPermIdx n bs s)⟩ with
          | .error e => .error e
          | .ok r => .ok r.1) draws with
      | .error e => .error e
      | .ok nulls =>
        let R : ℚ := (draws.length : ℚ)
        let frac : ℚ := ((nulls.countP fun v => decide (obs < v)) : ℚ) / R
        .ok (if frac = 0 then 1 / R else frac, [(MKey.null_distribution, MetaVal.listQ nulls)])

/-- Population mean (`np.mean`). -/
def listMean (l : List ℚ) : ℚ := l.sum / (l.length : ℚ)

/-- Population variance, the square of `np.std` (`ddof = 0`). -/
def listVar (l : List ℚ) : ℚ :=
  ((l.map fun v => (v - listMean l) ^ 2).sum) / (l.length : ℚ)

/-- The effective subsample size of `_fast_p_value` (`ts_abstract_class.py`
lines 257-258): a requested size below `max_lag + 10` is silently replaced
by `max(max_lag + 10, floor(sqrt(n)))`; otherwise the request is used. -/
def fastEffSS (maxLag n : ℕ) (ssIn : ℤ) : ℕ :=
  if ssIn < (maxLag : ℤ) + 10 then max (maxLag + 10) (Nat.sqrt n) else ssIn.toNat

/-- The per-block worker of `_fast_p_value` (lines 273-277): the wrapper
statistic on the `i`-th contiguous block of size `ss` of `X` and of the
once-permuted `Y`. -/
def fastWorker (base : BaseStat) (cdm : DataMat → DataMat) (cfg : TSConfig)
    (DX DY : DataMat) (bs ss : ℕ) (starts : List ℕ) (i : ℕ) : Except TSErr ℚ :=
  let permY : Mat := permuteMat DY.entry (buildPermIdx DX.rows bs starts)
  match wrapperTestStatistic base cdm cfg
      ⟨ss, ss, fun a b => DX.entry (ss * i + a) (ss * i + b)⟩
      ⟨ss, ss, fun a b => permY (ss * i + a) (ss * i + b)⟩ with
  | .error e => .error e
  | .ok r => .ok r.1

/-- The standardized statistic of `_fast_p_value` (lines 284-287): `0` when
the standard deviation `σ` of the block statistics is below `10e-4`
(`= 1/1000`), else `num_samples * (obs - mean) / σ + 1`. -/
def fastX (num : ℕ) (obs : ℚ) (nulls : List ℚ) (σ : ℚ) : ℚ :=
  if σ < 1 / 1000 then 0 else (num : ℚ) * (obs - listMean nulls) / σ + 1

/-- Method `TimeSeriesIndependenceTest._fast_p_value` (`ts_abstract_class.py`
lines 256-291).  When the requested `subsample_size` is below
`max_lag + 10` it is silently replaced by
`max(max_lag + 10, floor(sqrt(n)))`; if fewer than 4 disjoint subsamples of
the effective size fit in `n`, a `ValueError` is raised before any
statistic computation.  Otherwise one block permutation (offsets `starts`)
is applied to `Y`, the wrapper statistic is computed on each of the
`num_samples = n / ss` disjoint contiguous blocks, and the p-value is
`1 - chi2cdf x` for the standardized statistic `x = fastX ...`.
`σ` (the `np.std` of the block statistics) is supplied as an input, since a
rational square root need not exist; the theorems certify it against
`listVar`.  `chi2cdf` stands for `scipy.stats.chi2.cdf(·, 1)`. -/
def fastPValue (base : BaseStat) (cdm : DataMat → DataMat) (cfg : TSConfig)
    (chi2cdf : ℚ → ℚ) (DX DY : DataMat) (obs : ℚ) (bs : ℕ) (ssIn : ℤ)
    (starts : List ℕ) (σ : ℚ) : Except TSErr (ℚ × List (MKey × MetaVal)) :=
  let n := DX.rows
  let ss := fastEffSS cfg.maxLag n ssIn
  let num := n / ss
  if num < 4 then .error .insufficientSubsample
  else
    match exceptMap (fastWorker base cdm cfg DX DY bs ss starts) (List.range num) with
    | .error e => .error e
    | .ok nulls =>
      .ok (1 - chi2cdf (fastX num obs nulls σ), [(MKey.null_distribution, MetaVal.listQ nulls)])

/-- Method `TimeSeriesIndependenceTest.p_value` with `is_fast = True`
(`ts_abstract_class.py` lines 192-196): validate, compute the observed
statistic, then delegate to `_fast_p_value`. -/
def wrapperPValueFast (base : BaseStat) (cdm : DataMat → DataMat)
    (cfg : TSConfig) (chi2cdf : ℚ → ℚ) (X Y : DataMat) (blockSize : Option ℕ)
    (ssIn : ℤ) (starts : List ℕ) (σ : ℚ) :
    Except TSErr (ℚ × List (MKey × MetaVal)) :=
  match validateInput cdm cfg X Y blockSize with
  | .error e => .error e
  | .ok (DX, DY, bs, _, _) =>
    match wrapperTestStatistic base cdm cfg DX DY with
    | .error e => .error e
    | .ok (obs, _) => fastPValue base cdm cfg chi2cdf DX DY obs bs ssIn starts σ

end TSWrapper

section MGCTS

/-- A `rows × cols` nested-list rendering of a matrix, used where the source
stores a matrix inside a metadata dictionary. -/
def matLists (m : DataMat) : List (List ℚ) :=
  (List.range m.rows).map fun i => (List.range m.cols).map fun j => m.entry i j

/-- Method `MGC_TS.test_statistic` (`mgs_ts.py` lines 87-120): assert equal sample
counts, transform both inputs through `compute_distance`, then accumulate
`n * base(X, Y)` plus, for each lag `j` in `[1, M]`, the two directed terms
`(1 - j/(p*(M+1)))^2 * base * (n-j)` with `base` evaluated on
`(X[j:n,j:n], Y[0:n-j,0:n-j])` and on `(X[0:n-j,0:n-j], Y[j:n,j:n])`.
No non-negativity floor is applied.  `p` stands for `math.sqrt(n)` and is
certified by `p^2 = n`, `0 ≤ p` in the theorems; `base` is the MGC
statistic, treated as an injected capability (its implementation is outside
this core). -/
def mgcTsStatistic (base : ℕ → Mat → Mat → ℚ) (cdm : DataMat → DataMat)
    (p : ℚ) (maxLag : ℕ) (X Y : DataMat) :
    Except TSErr (ℚ × List (MKey × MetaVal)) :=
  if X.rows ≠ Y.rows then .error .shapeMismatch
  else
    let n := X.rows
    let DX := toDistance cdm X
    let DY := toDistance cdm Y
    let M := maxLag
    let s0 := (n : ℚ) * base n DX.entry DY.entry
    let stat := (List.range M).foldl (fun acc jm =>
      let j : ℕ := jm + 1
      let w := (1 - (j : ℚ) / (p * ((M : ℚ) + 1))) ^ 2
      acc + w * base (n - j) (subMat DX.entry j) DY.entry * ((n : ℚ) - (j : ℚ))
          + w * base (n - j) DX.entry (subMat DY.entry j) * ((n : ℚ) - (j : ℚ))) s0
    .ok (stat, [(MKey.dist_mtx_X, MetaVal.mat (matLists DX)),
                (MKey.dist_mtx_Y, MetaVal.mat (matLists DY))])

/-- The lag-aggregation formula exactly as stated in the spec-derived
claim: `n` times the lag-0 base statistic plus, for each lag `j` in
`[1, max_lag]`, `(1 - j/(sqrt(n)*(max_lag+1)))^2 * (n-j)` times the base
statistic in each of the two lag directions. -/
def mgcTsClaimFormula (base : ℕ → Mat → Mat → ℚ) (p : ℚ) (maxLag n : ℕ)
    (DX DY : Mat) : ℚ :=
  (n : ℚ) * base n DX DY +
    ((List.range' 1 maxLag).map fun (j : ℕ) =>
      (1 - (j : ℚ) / (p * ((maxLag : ℚ) + 1))) ^ 2 * ((n : ℚ) - (j : ℚ)) *
        (base (n - j) (subMat DX j) DY + base (n - j) DX (subMat DY j))).sum

/-- The permuted index sequence of `MGC_TS.p_value` (`mgs_ts.py` lines
193-194): runs of `block_size` consecutive indices starting at each drawn
offset, truncated to length `n` — with no reduction modulo `n`. -/
def mgcTsBuildIdx (n bs : ℕ) (starts : List ℕ) : List ℕ :=
  (concatRuns bs starts).take n

/-- Method `MGC_TS.p_value` (`mgs_ts.py` lines 174-204): assert equal sample
counts, fix `block_size = ceil(sqrt(n))`, compute the observed statistic,
recompute the statistic on `(X, permuted Y)` for each replicate draw, and
return the fraction of null statistics greater than **or equal to** the
observed one — with no floor applied when that fraction is zero. -/
def mgcTsPValue (base : ℕ → Mat → Mat → ℚ) (cdm : DataMat → DataMat)
    (p : ℚ) (maxLag : ℕ) (X Y : DataMat) (draws : List (List ℕ)) :
    Except TSErr (ℚ × List (MKey × MetaVal)) :=
  if X.rows ≠ Y.rows then .error .shapeMismatch
  else
    let n := X.rows
    let bs := ceilSqrt n
    match mgcTsStatistic base cdm p maxLag X Y with
    | .error e => .error e
    | .ok (obs, _) =>
      let DX := toDistance cdm X
      let DY := toDistance cdm Y
      match exceptMap (fun s =>
          match mgcTsStatistic base cdm p maxLag DX
              ⟨n, n, permuteMat DY.entry (mgcTsBuildIdx n bs s)⟩ with
          | .error e => .error e
          | .ok r => .ok r.1) draws with
      | .error e => .error e
      | .ok nulls =>
        .ok (((nulls.countP fun v => decide (obs ≤ v)) : ℚ) / (draws.length : ℚ),
             [(MKey.test_stats_null, MetaVal.listQ nulls)])

end MGCTS

section ClaimForms

/-- Contingency cell `t11` exactly as the spec-derived claim words it: the
number of indices `k` with `D_X[i,k] <= D_X[i,j]` and `D_Y[i,k] <= D_Y[i,j]`,
with 2 subtracted to exclude the points `i` and `j` themselves. -/
def hhgT11Claim (n : ℕ) (DX DY : Mat) (i j : ℕ) : ℤ :=
  (((List.range n).countP fun k => decide (DX i k ≤ DX i j ∧ DY i k ≤ DY i j)) : ℤ) - 2

/-- Contingency cell `t12` as the claim words it: `X`-closer only. -/
def hhgT12Claim (n : ℕ) (DX DY : Mat) (i j : ℕ) : ℤ :=
  (((List.range n).countP fun k => decide (DX i k ≤ DX i j ∧ ¬ DY i k ≤ DY i j)) : ℤ)

/-- Contingency cell `t21` as the claim words it: `Y`-closer only. -/
def hhgT21Claim (n : ℕ) (DX DY : Mat) (i j : ℕ) : ℤ :=
  (((List.range n).countP fun k => decide (¬ DX i k ≤ DX i j ∧ DY i k ≤ DY i j)) : ℤ)

/-- Contingency cell `t22` as the claim words it: neither closer. -/
def hhgT22Claim (n : ℕ) (DX DY : Mat) (i j : ℕ) : ℤ :=
  (((List.range n).countP fun k => decide (¬ DX i k ≤ DX i j ∧ ¬ DY i k ≤ DY i j)) : ℤ)

/-- Cell `S[i,j]` exactly as the spec-derived claim words it:
`(n-2)*(t12*t21 - t11*t22)^2 / ((t11+t12)(t21+t22)(t11+t21)(t12+t22))` when
that denominator is positive, and `0` otherwise — never `NaN` and never a
skipped pair. -/
def hhgSClaim (n : ℕ) (DX DY : Mat) (i j : ℕ) : ℚ :=
  let t11 := hhgT11Claim n DX DY i j
  let t12 := hhgT12Claim n DX DY i j
  let t21 := hhgT21Claim n DX DY i j
  let t22 := hhgT22Claim n DX DY i j
  let denom := (t11 + t12) * (t21 + t22) * (t11 + t21) * (t12 + t22)
  if 0 < denom then ((n : ℚ) - 2) * ((t12 * t21 - t11 * t22 : ℤ) : ℚ) ^ 2 / (denom : ℚ)
  else 0

/-- The claim's HHG statistic: the sum of `S[i,j]` over all ordered pairs
`(i, j)` with `i ≠ j`. -/
def hhgClaimSum (n : ℕ) (DX DY : Mat) : ℚ :=
  ((List.range n).map fun i =>
    ((List.range n).map fun j => if i ≠ j then hhgSClaim n DX DY i j else 0).sum).sum

end ClaimForms

instance (n bs : ℕ) (s : List ℕ) : Decidable (wrapperDraw n bs s) := by
  unfold wrapperDraw; infer_instance

instance (n bs : ℕ) (s : List ℕ) : Decidable (claimDraw n bs s) := by
  unfold claimDraw; infer_instance

instance (n bs : ℕ) (s : List ℕ) : Decidable (mgcTsDraw n bs s) := by
  unfold mgcTsDraw; exact List.decidablePerm s (List.range (n / bs + 1))

section ConcreteInputs

/-- A 2×2 distance matrix (square, zero diagonal): the failing input of the
HHG distance-input crash. -/
def dmEx : DataMat := ⟨2, 2, fun a b => if a = b then 0 else 1⟩

/-- A 2×1 raw observation matrix whose Euclidean distance matrix is `dmEx`. -/
def rawEx : DataMat := ⟨2, 1, fun a _ => (a : ℚ)⟩

/-- The all-zero 4×4 distance matrix. -/
def zero4 : DataMat := ⟨4, 4, fun _ _ => 0⟩

/-- The all-zero 5×5 distance matrix. -/
def zero5 : DataMat := ⟨5, 5, fun _ _ => 0⟩

/-- A 4×4 zero-diagonal matrix with a single 1 at position (2, 3). -/
def yEx4 : DataMat := ⟨4, 4, fun a b => if a = 2 ∧ b = 3 then 1 else 0⟩

/-- A base statistic reading entry (2, 3) of the second matrix on 4-sample
inputs (an injected independence test is an arbitrary function of the two
distance matrices). -/
def baseRead23 : ℕ → Mat → Mat → ℚ := fun n _ DY => if n = 4 then DY 2 3 else 0

/-- The constantly-zero base statistic. -/
def baseZero : BaseStat := fun _ _ _ => (0, [])

/-- The constantly-zero base statistic, bare-statistic form. -/
def baseZeroQ : ℕ → Mat → Mat → ℚ := fun _ _ _ => 0

/-- A base statistic that is constantly `-1` (the wrapper accepts any
injected test; unbiased distance correlation, one of its documented bases,
takes negative values). -/
def baseNegOne : BaseStat := fun _ _ _ => (-1, [])

/-- A 40×40 zero-diagonal matrix whose four diagonal 10×10 blocks carry the
values `1, 1+1/2000, 1, 1+1/2000` at their lower-left corners. -/
def x40 : DataMat :=
  ⟨40, 40, fun a b =>
    if a = 9 ∧ b = 0 then 1
    else if a = 19 ∧ b = 10 then 1 + 1/2000
    else if a = 29 ∧ b = 20 then 1
    else if a = 39 ∧ b = 30 then 1 + 1/2000
    else 0⟩

/-- The all-zero 40×40 distance matrix. -/
def zero40 : DataMat := ⟨40, 40, fun _ _ => 0⟩

/-- A base statistic reading the lower-left corner entry of the first
matrix. -/
def baseCorner : BaseStat := fun n DX _ => (DX (n - 1) 0, [])

/-- A sample-count-preserving distance function (constantly-zero square
output), used to instantiate `GoodCDM` in witnesses. -/
def cdmZero : DataMat → DataMat := fun m => ⟨m.rows, m.rows, fun _ _ => 0⟩

end ConcreteInputs

/-- Index `c` is the leftmost maximizer of `g` on `[0, s)`: every earlier index
is strictly smaller and no index below `s` is larger.  This is the
invariant maintained by the `optimal_lag` update loop. -/
def LeftmostMax (g : ℕ → ℚ) (s c : ℕ) : Prop :=
  c < s ∧ (∀ i < c, g i < g c) ∧ (∀ i < s, g i ≤ g c)

section Lemmas

/-- Summing a 0/1 indicator over a list counts the satisfying elements. -/
theorem sum_indicator_eq_countP (l : List ℕ) (p : ℕ → Prop) [DecidablePred p] :
    ((l.map fun k => if p k then (1 : ℤ) else 0).sum) =
      ((l.countP fun k => decide (p k)) : ℤ) := by
  induction l with
  | nil => simp
  | cons a t ih =>
    by_cases h : p a
    · simp [List.countP_cons, h, ih]
      ring
    · simp [List.countP_cons, h, ih]

/-- Product of 0/1 indicators is the indicator of the conjunction. -/
theorem ind_mul_ind (a b : Prop) [Decidable a] [Decidable b] :
    ((if a then (1 : ℤ) else 0) * (if b then 1 else 0)) =
      if a ∧ b then 1 else 0 := by
  by_cases ha : a <;> by_cases hb : b <;> simp [ha, hb]

/-- One minus a 0/1 indicator is the indicator of the negation. -/
theorem one_sub_ind (a : Prop) [Decidable a] :
    (1 - (if a then (1 : ℤ) else 0)) = if ¬ a then 1 else 0 := by
  by_cases ha : a <;> simp [ha]

/-- The code's `t11` matches the claim's count formulation. -/
theorem hhgT11_eq_claim (n : ℕ) (DX DY : Mat) (i j : ℕ) :
    hhgT11 n DX DY i j = hhgT11Claim n DX DY i j := by
  unfold hhgT11 hhgT11Claim hhgInd
  rw [← sum_indicator_eq_countP (p := fun k => DX i k ≤ DX i j ∧ DY i k ≤ DY i j)]
  congr 1
  apply congrArg
  apply List.map_congr_left
  intro k _
  exact ind_mul_ind _ _

/-- The code's `t12` matches the claim's count formulation. -/
theorem hhgT12_eq_claim (n : ℕ) (DX DY : Mat) (i j : ℕ) :
    hhgT12 n DX DY i j = hhgT12Claim n DX DY i j := by
  unfold hhgT12 hhgT12Claim hhgInd
  rw [← sum_indicator_eq_countP (p := fun k => DX i k ≤ DX i j ∧ ¬ DY i k ≤ DY i j)]
  apply congrArg
  apply List.map_congr_left
  intro k _
  rw [one_sub_ind]
  exact ind_mul_ind _ _

/-- The code's `t21` matches the claim's count formulation. -/
theorem hhgT21_eq_claim (n : ℕ) (DX DY : Mat) (i j : ℕ) :
    hhgT21 n DX DY i j = hhgT21Claim n DX DY i j := by
  unfold hhgT21 hhgT21Claim hhgInd
  rw [← sum_indicator_eq_countP (p := fun k => ¬ DX i k ≤ DX i j ∧ DY i k ≤ DY i j)]
  apply congrArg
  apply List.map_congr_left
  intro k _
  rw [one_sub_ind]
  exact ind_mul_ind _ _

/-- The code's `t22` matches the claim's count formulation. -/
theorem hhgT22_eq_claim (n : ℕ) (DX DY : Mat) (i j : ℕ) :
    hhgT22 n DX DY i j = hhgT22Claim n DX DY i j := by
  unfold hhgT22 hhgT22Claim hhgInd
  rw [← sum_indicator_eq_countP (p := fun k => ¬ DX i k ≤ DX i j ∧ ¬ DY i k ≤ DY i j)]
  apply congrArg
  apply List.map_congr_left
  intro k _
  rw [one_sub_ind, one_sub_ind]
  exact ind_mul_ind _ _

/-- The code's `S[i,j]` matches the claim's cell off the diagonal. -/
theorem hhgS_eq_claim (n : ℕ) (DX DY : Mat) (i j : ℕ) :
    hhgS n DX DY i j = if i = j then 0 else hhgSClaim n DX DY i j := by
  unfold hhgS hhgSClaim
  rw [hhgT11_eq_claim, hhgT12_eq_claim, hhgT21_eq_claim, hhgT22_eq_claim]

end Lemmas

/-- Claim C2: for `n ≥ 2`, the HHG test statistic equals the sum over all
ordered pairs `(i, j)` with `i ≠ j` of the chi-squared-style contribution
built from the claimed contingency counts (with 2 subtracted from the
both-closer cell), taken as `0` whenever the denominator is not positive —
never `NaN` and never a skipped pair. -/
theorem hhg_statistic_matches_contingency_formula (n : ℕ) (DX DY : Mat)
    (_h : 2 ≤ n) : hhgStat n DX DY = hhgClaimSum n DX DY := by
  unfold hhgStat hhgClaimSum
  apply congrArg
  apply List.map_congr_left
  intro i _
  apply congrArg
  apply List.map_congr_left
  intro j _
  rw [hhgS_eq_claim]
  by_cases hij : i = j <;> simp [hij]

/-- Witness for C2 at `n = 2` on a concrete distance matrix. -/
theorem hhg_statistic_matches_contingency_witness :
    2 ≤ 2 ∧ hhgStat 2 dmEx.entry dmEx.entry = hhgClaimSum 2 dmEx.entry dmEx.entry :=
  ⟨by decide, hhg_statistic_matches_contingency_formula 2 dmEx.entry dmEx.entry (by decide)⟩

/-- One step of the strict-greater update preserves the leftmost-maximum
invariant, and so does folding it over a contiguous index range. -/
theorem foldl_pick_leftmost (g : ℕ → ℚ) :
    ∀ (k s c : ℕ), LeftmostMax g s c →
      LeftmostMax g (s + k)
        ((List.range' s k).foldl (fun cur j => if g cur < g j then j else cur) c) := by
  intro k
  induction k with
  | zero => intro s c h; simpa using h
  | succ k ih =>
    intro s c h
    rw [List.range'_succ, List.foldl_cons]
    have hstep : LeftmostMax g (s + 1) (if g c < g s then s else c) := by
      obtain ⟨hcs, hstrict, hle⟩ := h
      by_cases hgs : g c < g s
      · rw [if_pos hgs]
        refine ⟨Nat.lt_succ_self s, ?_, ?_⟩
        · intro i hi
          exact lt_of_le_of_lt (hle i hi) hgs
        · intro i hi
          rcases Nat.lt_succ_iff_lt_or_eq.1 hi with hi' | rfl
          · exact le_trans (hle i hi') (le_of_lt hgs)
          · exact le_refl _
      · rw [if_neg hgs]
        refine ⟨Nat.lt_succ_of_lt hcs, hstrict, ?_⟩
        intro i hi
        rcases Nat.lt_succ_iff_lt_or_eq.1 hi with hi' | rfl
        · exact hle i hi'
        · exact not_lt.1 hgs
    have hres := ih (s + 1) _ hstep
    have harith : s + 1 + k = s + (k + 1) := by omega
    rwa [harith] at hres

/-- The `optimal_lag` fold returns the leftmost maximizer of the per-lag
contributions on `[0, M]`. -/
theorem argmaxQ_leftmost (g : ℕ → ℚ) (M : ℕ) :
    LeftmostMax g (M + 1) (argmaxQ g M) := by
  unfold argmaxQ
  rw [List.range_eq_range']
  rw [List.range'_succ, List.foldl_cons]
  rw [ite_self]
  have hbase : LeftmostMax g 1 0 := by
    refine ⟨Nat.one_pos, ?_, ?_⟩
    · intro i hi; omega
    · intro i hi
      have : i = 0 := by omega
      subst this; exact le_refl _
  have hres := foldl_pick_leftmost g M (0 + 1) 0 hbase
  simpa [Nat.add_comm] using hres

/-- Validation succeeds exactly as written when the sample counts
agree and the maximum lag is below `n - 4`. -/
theorem validateInput_ok (cdm : DataMat → DataMat) (cfg : TSConfig)
    (X Y : DataMat) (bsOpt : Option ℕ) (hshape : X.rows = Y.rows)
    (hlag : cfg.maxLag + 4 < X.rows) :
    validateInput cdm cfg X Y bsOpt =
      .ok (toDistance cdm X, toDistance cdm Y, bsOpt.getD (ceilSqrt X.rows),
           cfg.maxLag, X.rows) := by
  unfold validateInput
  rw [if_neg (fun hc => hc hshape), if_neg (by omega : ¬ (X.rows - 4 ≤ cfg.maxLag))]

/-- The wrapper statistic succeeds on validated inputs and returns the
lag-aggregation core applied to the transformed matrices. -/
theorem wrapperTestStatistic_ok (base : BaseStat) (cdm : DataMat → DataMat)
    (cfg : TSConfig) (X Y : DataMat) (hshape : X.rows = Y.rows)
    (hlag : cfg.maxLag + 4 < X.rows) :
    wrapperTestStatistic base cdm cfg X Y =
      .ok (wrapperCore base cfg X.rows cfg.maxLag
            (toDistance cdm X).entry (toDistance cdm Y).entry) := by
  unfold wrapperTestStatistic
  rw [validateInput_ok cdm cfg X Y none hshape hlag]

/-- Indexing into the `dependence_by_lag` array recovers the per-lag
contribution. -/
theorem depByLag_getD (base : BaseStat) (n M : ℕ) (DX DY : Mat) (i : ℕ)
    (h : i < M + 1) :
    (depByLag base n M DX DY).getD i 0 = lagStat base n DX DY i := by
  unfold depByLag
  rw [List.getD_eq_getElem?_getD, List.getElem?_map, List.getElem?_range h]
  rfl

/-- The `dependence_by_lag` array has one entry per lag in `[0, M]`. -/
theorem depByLag_length (base : BaseStat) (n M : ℕ) (DX DY : Mat) :
    (depByLag base n M DX DY).length = M + 1 := by
  simp [depByLag]

/-- Every per-lag contribution is non-negative (for lags at most `n`). -/
theorem lagStat_nonneg (base : BaseStat) (n : ℕ) (DX DY : Mat) (j : ℕ)
    (hj : j ≤ n) : 0 ≤ lagStat base n DX DY j := by
  unfold lagStat
  by_cases h0 : j = 0
  · simp [h0]
  · rw [if_neg h0]
    apply div_nonneg
    · apply mul_nonneg
      · have hq : (j : ℚ) ≤ (n : ℚ) := by exact_mod_cast hj
        linarith
      · exact le_max_left 0 _
    · positivity

/-- The metadata produced by the lag-aggregation core always binds
`optimal_lag` and `dependence_by_lag` (in that order, before any
`optimal_scale` entry). -/
theorem wrapperCore_lookup (base : BaseStat) (cfg : TSConfig) (n M : ℕ)
    (DX DY : Mat) :
    List.lookup MKey.optimal_lag (wrapperCore base cfg n M DX DY).2 =
        some (MetaVal.nat (argmaxQ (lagStat base n DX DY) M)) ∧
      List.lookup MKey.dependence_by_lag (wrapperCore base cfg n M DX DY).2 =
        some (MetaVal.listQ (depByLag base n M DX DY)) := by
  simp only [wrapperCore]
  by_cases hm : cfg.whichTest = "mgcx"
  · rw [if_pos hm]
    exact ⟨by with_unfolding_all rfl, by with_unfolding_all rfl⟩
  · rw [if_neg hm]
    exact ⟨by with_unfolding_all rfl, by with_unfolding_all rfl⟩

/-- Claim C3 (code bug): passing an already-square zero-diagonal matrix to
`HHG.test_statistic` does not succeed — the local `dist_mtx_X` is never
assigned (there is no pass-through branch), so the read at line 55 raises
`UnboundLocalError` (modelled as `none`); whereas raw input whose distance
transform produces exactly that matrix succeeds and returns the statistic
of the matrix. -/
theorem hhg_distance_input_unbound_variable :
    hhgTestStatistic (fun m => m) dmEx dmEx = none ∧
    hhgTestStatistic (fun _ => dmEx) rawEx rawEx =
      some (hhgStat 2 dmEx.entry dmEx.entry, []) :=
  ⟨by with_unfolding_all rfl, by with_unfolding_all rfl⟩

/-- Claim C4 (amended): for every successful lag-aware `test_statistic`
call of the time-series wrapper with maximum lag `M`, the metadata binds
`optimal_lag` to an integer in `[0, M]` that is the argmax of
`dependence_by_lag` with ties resolved to the smallest lag (strict
greater-than update), and binds `dependence_by_lag` to a sequence of
exactly `M+1` non-negative entries.  (The MGC_TS lag test does not satisfy
this: its metadata carries neither key — see the counterexample.) -/
theorem ts_metadata_lag_keys_amended (base : BaseStat) (cdm : DataMat → DataMat)
    (cfg : TSConfig) (X Y : DataMat) (hshape : X.rows = Y.rows)
    (hlag : cfg.maxLag + 4 < X.rows) :
    ∃ s md L dep,
      wrapperTestStatistic base cdm cfg X Y = .ok (s, md) ∧
      List.lookup MKey.optimal_lag md = some (MetaVal.nat L) ∧
      List.lookup MKey.dependence_by_lag md = some (MetaVal.listQ dep) ∧
      L ≤ cfg.maxLag ∧
      dep.length = cfg.maxLag + 1 ∧
      (∀ x ∈ dep, 0 ≤ x) ∧
      (∀ i, i ≤ cfg.maxLag → dep.getD i 0 ≤ dep.getD L 0) ∧
      (∀ i, i < L → dep.getD i 0 < dep.getD L 0) := by
  set n := X.rows with hn
  set M := cfg.maxLag with hM
  set DX := (toDistance cdm X).entry with hDX
  set DY := (toDistance cdm Y).entry with hDY
  set g := lagStat base n DX DY with hg
  obtain ⟨hL, hstrict, hle⟩ := argmaxQ_leftmost g M
  refine ⟨(wrapperCore base cfg n M DX DY).1, (wrapperCore base cfg n M DX DY).2,
    argmaxQ g M, depByLag base n M DX DY,
    wrapperTestStatistic_ok base cdm cfg X Y hshape hlag,
    (wrapperCore_lookup base cfg n M DX DY).1,
    (wrapperCore_lookup base cfg n M DX DY).2,
    by omega, depByLag_length base n M DX DY, ?_, ?_, ?_⟩
  · intro x hx
    obtain ⟨j, hj, rfl⟩ := List.mem_map.1 hx
    have hjM : j < M + 1 := List.mem_range.1 hj
    exact lagStat_nonneg base n DX DY j (by omega)
  · intro i hi
    rw [depByLag_getD base n M DX DY i (by omega),
        depByLag_getD base n M DX DY _ hL]
    exact hle i (by omega)
  · intro i hi
    rw [depByLag_getD base n M DX DY i (by omega),
        depByLag_getD base n M DX DY _ hL]
    exact hstrict i hi

/-- Witness for C4: the amended statement instantiated on a concrete
5-sample call with maximum lag 0. -/
theorem ts_metadata_lag_keys_witness :
    ∃ s md L dep,
      wrapperTestStatistic baseZero (fun m => m) ⟨"dcorrx", 0⟩ zero5 zero5 = .ok (s, md) ∧
      List.lookup MKey.optimal_lag md = some (MetaVal.nat L) ∧
      List.lookup MKey.dependence_by_lag md = some (MetaVal.listQ dep) ∧
      L ≤ (0 : ℕ) ∧
      dep.length = 0 + 1 ∧
      (∀ x ∈ dep, 0 ≤ x) ∧
      (∀ i, i ≤ (0 : ℕ) → dep.getD i 0 ≤ dep.getD L 0) ∧
      (∀ i, i < L → dep.getD i 0 < dep.getD L 0) :=
  ts_metadata_lag_keys_amended baseZero (fun m => m) ⟨"dcorrx", 0⟩ zero5 zero5
    rfl (by decide)

/-- Counterexample for C4: the metadata of the MGC_TS lag test contains
neither `optimal_lag` nor `dependence_by_lag` — it carries only the two
distance matrices. -/
theorem mgc_ts_metadata_missing_lag_keys :
    mgcTsStatistic baseZeroQ (fun m => m) 2 1 zero4 zero4 =
      .ok (0, [(MKey.dist_mtx_X, MetaVal.mat (matLists zero4)),
               (MKey.dist_mtx_Y, MetaVal.mat (matLists zero4))]) ∧
    List.lookup MKey.optimal_lag
      [(MKey.dist_mtx_X, MetaVal.mat (matLists zero4)),
       (MKey.dist_mtx_Y, MetaVal.mat (matLists zero4))] = none ∧
    List.lookup MKey.dependence_by_lag
      [(MKey.dist_mtx_X, MetaVal.mat (matLists zero4)),
       (MKey.dist_mtx_Y, MetaVal.mat (matLists zero4))] = none :=
  ⟨by with_unfolding_all rfl, by with_unfolding_all rfl, by with_unfolding_all rfl⟩

/-- Claim C5: for inputs with `n ≥ 5` samples and configured
`max_lag ≥ n - 4`, `test_statistic` and `p_value` (exact and fast mode) on
the time-series wrapper all fail with the `InvalidLag` validation error
before any statistic or resampling computation — the `Except` result
carries no partial output. -/
theorem ts_invalid_lag_rejected (base : BaseStat) (cdm : DataMat → DataMat)
    (cfg : TSConfig) (X Y : DataMat) (blockSize : Option ℕ)
    (draws : List (List ℕ)) (chi2cdf : ℚ → ℚ) (ssIn : ℤ) (starts : List ℕ)
    (σ : ℚ) (_h5 : 5 ≤ X.rows) (hshape : X.rows = Y.rows)
    (hlag : X.rows - 4 ≤ cfg.maxLag) :
    wrapperTestStatistic base cdm cfg X Y = .error .invalidLag ∧
    wrapperPValueExact base cdm cfg X Y blockSize draws = .error .invalidLag ∧
    wrapperPValueFast base cdm cfg chi2cdf X Y blockSize ssIn starts σ =
      .error .invalidLag := by
  have hv : ∀ bsOpt, validateInput cdm cfg X Y bsOpt = .error .invalidLag := by
    intro bsOpt
    unfold validateInput
    rw [if_neg (fun hc => hc hshape), if_pos hlag]
  refine ⟨?_, ?_, ?_⟩
  · unfold wrapperTestStatistic
    rw [hv none]
  · unfold wrapperPValueExact
    rw [hv blockSize]
  · unfold wrapperPValueFast
    rw [hv blockSize]

/-- Witness for C5 at `n = 5`, `max_lag = 1 = n - 4`. -/
theorem ts_invalid_lag_rejected_witness :
    wrapperTestStatistic baseZero (fun m => m) ⟨"dcorrx", 1⟩ zero5 zero5 =
        .error .invalidLag ∧
      wrapperPValueExact baseZero (fun m => m) ⟨"dcorrx", 1⟩ zero5 zero5 none [] =
        .error .invalidLag ∧
      wrapperPValueFast baseZero (fun m => m) ⟨"dcorrx", 1⟩ (fun _ => 0) zero5 zero5
          none (-1) [] 0 =
        .error .invalidLag :=
  ts_invalid_lag_rejected baseZero (fun m => m) ⟨"dcorrx", 1⟩ zero5 zero5 none []
    (fun _ => 0) (-1) [] 0 (by decide) rfl (by decide)

/-- Claim C8 (amended): when the configured maximum lag is 0, the
lag-aggregated statistic of the time-series wrapper equals the
**non-negative part** `max(0, ·)` of the base statistic on the full
(untransformed by any lag shift) distance matrices, with no lag
contribution added; it equals the base statistic itself only when the base
statistic is non-negative. -/
theorem ts_lag_zero_nonneg_part_amended (base : BaseStat)
    (cdm : DataMat → DataMat) (cfg : TSConfig) (X Y : DataMat)
    (hM : cfg.maxLag = 0) (hshape : X.rows = Y.rows) (hn : 4 < X.rows) :
    ∃ md,
      wrapperTestStatistic base cdm cfg X Y =
        .ok (max 0 (base X.rows (toDistance cdm X).entry (toDistance cdm Y).entry).1, md) := by
  refine ⟨(wrapperCore base cfg X.rows cfg.maxLag
    (toDistance cdm X).entry (toDistance cdm Y).entry).2, ?_⟩
  rw [wrapperTestStatistic_ok base cdm cfg X Y hshape (by omega)]
  have hstat : (wrapperCore base cfg X.rows cfg.maxLag
      (toDistance cdm X).entry (toDistance cdm Y).entry).1 =
      max 0 (base X.rows (toDistance cdm X).entry (toDistance cdm Y).entry).1 := by
    simp [wrapperCore, hM, depByLag, lagStat, List.range_succ, List.range_zero]
  exact congrArg Except.ok (Prod.ext hstat rfl)

/-- Witness for C8 on a concrete 5-sample call. -/
theorem ts_lag_zero_nonneg_part_witness :
    ∃ md,
      wrapperTestStatistic baseZero (fun m => m) ⟨"dcorrx", 0⟩ zero5 zero5 =
        .ok (max 0 (baseZero 5 (toDistance (fun m => m) zero5).entry
          (toDistance (fun m => m) zero5).entry).1, md) :=
  ts_lag_zero_nonneg_part_amended baseZero (fun m => m) ⟨"dcorrx", 0⟩ zero5 zero5
    rfl rfl (by decide)

/-- Counterexample for C8: with an injected base statistic that returns
`-1` (the wrapper accepts any test object, and its documented bases include
unbiased distance correlation, which takes negative values), the lag-0
wrapper statistic is `0`, not the base statistic `-1`. -/
theorem ts_lag_zero_negative_base_counterexample :
    wrapperTestStatistic baseNegOne (fun m => m) ⟨"dcorrx", 0⟩ zero5 zero5 =
        .ok (0, [(MKey.optimal_lag, MetaVal.nat 0),
                 (MKey.dependence_by_lag, MetaVal.listQ [0])]) ∧
      (baseNegOne 5 zero5.entry zero5.entry).1 = -1 ∧
      (0 : ℚ) ≠ -1 :=
  ⟨by with_unfolding_all rfl, by with_unfolding_all rfl, by norm_num⟩

/-- Fail-fast mapping succeeds when every element succeeds, preserving
length. -/
theorem exceptMap_ok_of_forall {α β ε : Type} (f : α → Except ε β)
    (l : List α) (h : ∀ a ∈ l, ∃ b, f a = .ok b) :
    ∃ out, exceptMap f l = .ok out ∧ out.length = l.length := by
  induction l with
  | nil => exact ⟨[], rfl, rfl⟩
  | cons a t ih =>
    obtain ⟨b, hb⟩ := h a (List.mem_cons_self a t)
    obtain ⟨out, hout, hlen⟩ := ih (fun x hx => h x (List.mem_cons_of_mem a hx))
    refine ⟨b :: out, ?_, by simp [hlen]⟩
    unfold exceptMap
    rw [hb, hout]

/-- Claim C1 (amended): for every valid input the **time-series wrapper**'s
exact-mode p-value lies in `(0, 1]`: it is the fraction of null replicates
whose statistic is strictly greater than the observed statistic, replaced
by `1/replication_factor` when that fraction is exactly 0 — never 0.  (The
MGC_TS lag test violates the original claim: it compares with `>=` and
applies no floor, so it can return exactly 0 — see the counterexample.) -/
theorem ts_pvalue_in_unit_interval_amended (base : BaseStat)
    (cdm : DataMat → DataMat) (cfg : TSConfig) (X Y : DataMat)
    (blockSize : Option ℕ) (draws : List (List ℕ)) (hcdm : GoodCDM cdm)
    (hshape : X.rows = Y.rows) (hlag : cfg.maxLag + 4 < X.rows)
    (hdraws : draws ≠ []) :
    ∃ p nulls obs md0,
      wrapperPValueExact base cdm cfg X Y blockSize draws =
        .ok (p, [(MKey.null_distribution, MetaVal.listQ nulls)]) ∧
      wrapperTestStatistic base cdm cfg (toDistance cdm X) (toDistance cdm Y) =
        .ok (obs, md0) ∧
      nulls.length = draws.length ∧
      p = (if nulls.countP (fun v => decide (obs < v)) = 0
           then 1 / (draws.length : ℚ)
           else (nulls.countP (fun v => decide (obs < v)) : ℚ) / (draws.length : ℚ)) ∧
      0 < p ∧ p ≤ 1 := by
  have hXr : (toDistance cdm X).rows = X.rows := toDistance_rows cdm hcdm X
  have hYr : (toDistance cdm Y).rows = X.rows := by
    rw [toDistance_rows cdm hcdm Y, hshape]
  have hobs := wrapperTestStatistic_ok base cdm cfg
    (toDistance cdm X) (toDistance cdm Y) (by rw [hXr, hYr]) (by rw [hXr]; exact hlag)
  have hwork : ∀ s ∈ draws, ∃ b,
      ((fun s => match wrapperTestStatistic base cdm cfg (toDistance cdm X)
          ⟨X.rows, X.rows, permuteMat (toDistance cdm Y).entry
            (buildPermIdx X.rows (blockSize.getD (ceilSqrt X.rows)) s)⟩ with
        | Except.error e => Except.error e
        | Except.ok r => Except.ok r.1 : List ℕ → Except TSErr ℚ)) s = Except.ok b := by
    intro s _
    simp only [wrapperTestStatistic_ok base cdm cfg (toDistance cdm X)
      ⟨X.rows, X.rows, permuteMat (toDistance cdm Y).entry
        (buildPermIdx X.rows (blockSize.getD (ceilSqrt X.rows)) s)⟩ hXr
      (by rw [hXr]; exact hlag)]
    exact ⟨_, rfl⟩
  obtain ⟨nulls, hmap, hlen⟩ := exceptMap_ok_of_forall _ draws hwork
  set obs := (wrapperCore base cfg (toDistance cdm X).rows cfg.maxLag
    (toDistance cdm (toDistance cdm X)).entry
    (toDistance cdm (toDistance cdm Y)).entry).1 with hobsdef
  set md0 := (wrapperCore base cfg (toDistance cdm X).rows cfg.maxLag
    (toDistance cdm (toDistance cdm X)).entry
    (toDistance cdm (toDistance cdm Y)).entry).2 with hmd0def
  have hobsPair : wrapperTestStatistic base cdm cfg
      (toDistance cdm X) (toDistance cdm Y) = .ok (obs, md0) := hobs
  have hRpos : (0 : ℚ) < (draws.length : ℚ) := by
    have : 0 < draws.length := List.length_pos.2 hdraws
    exact_mod_cast this
  have hRone : (1 : ℚ) ≤ (draws.length : ℚ) := by
    have : 1 ≤ draws.length := List.length_pos.2 hdraws
    exact_mod_cast this
  have hcle : ((nulls.countP fun v => decide (obs < v)) : ℚ) ≤ (draws.length : ℚ) := by
    have h1 : nulls.countP (fun v => decide (obs < v)) ≤ nulls.length :=
      List.countP_le_length _
    have h2 : nulls.countP (fun v => decide (obs < v)) ≤ draws.length := hlen ▸ h1
    exact_mod_cast h2
  refine ⟨(if ((nulls.countP fun v => decide (obs < v)) : ℚ) / (draws.length : ℚ) = 0
      then 1 / (draws.length : ℚ)
      else ((nulls.countP fun v => decide (obs < v)) : ℚ) / (draws.length : ℚ)),
    nulls, obs, md0, ?_, hobsPair, hlen, ?_, ?_, ?_⟩
  · simp only [wrapperPValueExact,
      validateInput_ok cdm cfg X Y blockSize hshape hlag, hobsPair, hmap]
  · by_cases hc : nulls.countP (fun v => decide (obs < v)) = 0
    · simp [hc]
    · have hq : ((nulls.countP fun v => decide (obs < v)) : ℚ) ≠ 0 := by
        exact_mod_cast hc
      rw [if_neg hc, if_neg (div_ne_zero hq (ne_of_gt hRpos))]
  · by_cases hc : nulls.countP (fun v => decide (obs < v)) = 0
    · simp only [hc, Nat.cast_zero, zero_div, if_true]
      exact div_pos one_pos hRpos
    · have hq : (0 : ℚ) < ((nulls.countP fun v => decide (obs < v)) : ℚ) := by
        exact_mod_cast Nat.pos_of_ne_zero hc
      rw [if_neg (div_ne_zero (ne_of_gt hq) (ne_of_gt hRpos))]
      exact div_pos hq hRpos
  · by_cases hc : nulls.countP (fun v => decide (obs < v)) = 0
    · simp only [hc, Nat.cast_zero, zero_div, if_true]
      rw [div_le_one hRpos]
      exact hRone
    · have hq : ((nulls.countP fun v => decide (obs < v)) : ℚ) ≠ 0 := by
        exact_mod_cast hc
      rw [if_neg (div_ne_zero hq (ne_of_gt hRpos))]
      rw [div_le_one hRpos]
      exact hcle

/-- Witness for C1: the amended statement instantiated on a concrete
5-sample call with one replicate. -/
theorem ts_pvalue_in_unit_interval_witness :
    ∃ p nulls obs md0,
      wrapperPValueExact baseZero cdmZero ⟨"dcorrx", 0⟩ zero5 zero5 none [[0, 0]] =
        .ok (p, [(MKey.null_distribution, MetaVal.listQ nulls)]) ∧
      wrapperTestStatistic baseZero cdmZero ⟨"dcorrx", 0⟩
          (toDistance cdmZero zero5) (toDistance cdmZero zero5) =
        .ok (obs, md0) ∧
      nulls.length = [[(0 : ℕ), 0]].length ∧
      p = (if nulls.countP (fun v => decide (obs < v)) = 0
           then 1 / (([[(0 : ℕ), 0]].length : ℕ) : ℚ)
           else (nulls.countP (fun v => decide (obs < v)) : ℚ) / (([[(0 : ℕ), 0]].length : ℕ) : ℚ)) ∧
      0 < p ∧ p ≤ 1 :=
  ts_pvalue_in_unit_interval_amended baseZero cdmZero ⟨"dcorrx", 0⟩ zero5 zero5
    none [[0, 0]] (fun m => ⟨rfl, rfl⟩) rfl (by decide) (by decide)

/-- Counterexample for C1: a concrete MGC_TS `p_value` call in exact
permutation mode returning exactly 0 (its comparison is `>=` yet no null
replicate reaches the observed statistic, and no `1/R` floor is applied). -/
theorem mgc_ts_pvalue_zero_counterexample :
    mgcTsPValue baseRead23 (fun m => m) 2 1 zero4 yEx4 [[0, 1, 2]] =
      .ok (0, [(MKey.test_stats_null, MetaVal.listQ [0])]) ∧
    ¬ (0 : ℚ) > 0 :=
  ⟨by with_unfolding_all rfl, by norm_num⟩

/-- Claim C6 (amended): in fast subsampling mode a requested
`subsample_size` below `max_lag + 10` does **not** raise — it is silently
replaced by `max(max_lag + 10, floor(sqrt(n)))`; and whenever fewer than 4
disjoint subsamples of the effective subsample size fit in `n`
(`n // ss < 4`), the call fails with the insufficient-subsample error
before any statistic computation. -/
theorem fast_subsample_clamp_amended (base : BaseStat)
    (cdm : DataMat → DataMat) (cfg : TSConfig) (chi2cdf : ℚ → ℚ)
    (DX DY : DataMat) (obs : ℚ) (bs : ℕ) (ssIn : ℤ) (starts : List ℕ)
    (σ : ℚ) :
    (ssIn < (cfg.maxLag : ℤ) + 10 →
      fastPValue base cdm cfg chi2cdf DX DY obs bs ssIn starts σ =
        fastPValue base cdm cfg chi2cdf DX DY obs bs
          ((max (cfg.maxLag + 10) (Nat.sqrt DX.rows) : ℕ) : ℤ) starts σ) ∧
    (DX.rows / fastEffSS cfg.maxLag DX.rows ssIn < 4 →
      fastPValue base cdm cfg chi2cdf DX DY obs bs ssIn starts σ =
        .error .insufficientSubsample) := by
  constructor
  · intro hss
    have h1 : fastEffSS cfg.maxLag DX.rows ssIn =
        max (cfg.maxLag + 10) (Nat.sqrt DX.rows) := by
      unfold fastEffSS
      rw [if_pos hss]
    have h2 : fastEffSS cfg.maxLag DX.rows
        ((max (cfg.maxLag + 10) (Nat.sqrt DX.rows) : ℕ) : ℤ) =
        max (cfg.maxLag + 10) (Nat.sqrt DX.rows) := by
      unfold fastEffSS
      rw [if_neg, Int.toNat_natCast]
      have hmax := le_max_left (cfg.maxLag + 10) (Nat.sqrt DX.rows)
      omega
    simp only [fastPValue, h1, h2]
  · intro hnum
    simp only [fastPValue]
    rw [if_pos hnum]

/-- Witness for C6: the clamp conjunct instantiated on a concrete call
with requested subsample size `-1 < 0 + 10`. -/
theorem fast_subsample_clamp_witness :
    fastPValue baseZero cdmZero ⟨"dcorrx", 0⟩ (fun _ => 0) zero40 zero40 0 40
        (-1) [0, 0] 0 =
      fastPValue baseZero cdmZero ⟨"dcorrx", 0⟩ (fun _ => 0) zero40 zero40 0 40
        ((max (0 + 10) (Nat.sqrt 40) : ℕ) : ℤ) [0, 0] 0 :=
  (fast_subsample_clamp_amended baseZero cdmZero ⟨"dcorrx", 0⟩ (fun _ => 0)
    zero40 zero40 0 40 (-1) [0, 0] 0).1 (by decide)

/-- Counterexample for C6: a concrete fast-mode call with
`subsample_size = 5 < max_lag + 10 = 10` does not raise any error — it
returns a p-value (the requested size is clamped instead). -/
theorem fast_small_subsample_no_error :
    ((5 : ℤ) < ((0 : ℕ) : ℤ) + 10) ∧
    fastPValue baseZero cdmZero ⟨"dcorrx", 0⟩ (fun _ => 0) zero40 zero40 0 40
        5 [0, 0] 0 =
      .ok (1, [(MKey.null_distribution, MetaVal.listQ [0, 0, 0, 0])]) :=
  ⟨by decide, by with_unfolding_all rfl⟩

/-- Claim C7 (amended): in fast subsampling mode, with `μ` and `σ` the
sample mean and standard deviation of the per-block statistics
(`σ ≥ 0`, `σ² = Var`): if `σ < 10e-4 = 1/1000` the standardized statistic
`x` is 0, otherwise `x = num_samples*(observed - μ)/σ + 1`; and the
returned p-value is `1 - chi2cdf x` (chi-squared CDF with 1 degree of
freedom).  The original claim's threshold `1e-4` is wrong: the code
compares `σ` against `10e-4` — see the counterexample. -/
theorem fast_pvalue_standardization_amended (base : BaseStat)
    (cdm : DataMat → DataMat) (cfg : TSConfig) (chi2cdf : ℚ → ℚ)
    (DX DY : DataMat) (obs : ℚ) (bs : ℕ) (ssIn : ℤ) (starts : List ℕ)
    (σ : ℚ) (nulls : List ℚ)
    (hnum : ¬ DX.rows / fastEffSS cfg.maxLag DX.rows ssIn < 4)
    (hmap : exceptMap (fastWorker base cdm cfg DX DY bs
        (fastEffSS cfg.maxLag DX.rows ssIn) starts)
        (List.range (DX.rows / fastEffSS cfg.maxLag DX.rows ssIn)) = .ok nulls)
    (_hσ0 : 0 ≤ σ) (_hσ : σ ^ 2 = listVar nulls) :
    fastPValue base cdm cfg chi2cdf DX DY obs bs ssIn starts σ =
      .ok (1 - chi2cdf (if σ < 1 / 1000 then 0
            else ((DX.rows / fastEffSS cfg.maxLag DX.rows ssIn : ℕ) : ℚ) *
              (obs - listMean nulls) / σ + 1),
           [(MKey.null_distribution, MetaVal.listQ nulls)]) := by
  simp only [fastPValue, if_neg hnum, hmap, fastX]

/-- Witness for C7 on a concrete call whose per-block statistics are all
zero (so `σ = 0` is the exact standard deviation). -/
theorem fast_pvalue_standardization_witness :
    fastPValue baseZero cdmZero ⟨"dcorrx", 0⟩ (fun _ => 0) zero40 zero40 0 40
        5 [0, 0] 0 =
      .ok (1 - (fun _ => (0 : ℚ)) (if (0 : ℚ) < 1 / 1000 then 0
            else ((zero40.rows / fastEffSS 0 zero40.rows 5 : ℕ) : ℚ) *
              (0 - listMean [0, 0, 0, 0]) / 0 + 1),
           [(MKey.null_distribution, MetaVal.listQ [0, 0, 0, 0])]) :=
  fast_pvalue_standardization_amended baseZero cdmZero ⟨"dcorrx", 0⟩
    (fun _ => 0) zero40 zero40 0 40 5 [0, 0] 0 [0, 0, 0, 0]
    (by with_unfolding_all decide) (by with_unfolding_all rfl) (le_refl 0)
    (by with_unfolding_all rfl)

/-- Counterexample for C7: per-block statistics with exact standard
deviation `σ = 1/4000`, which is at least `1e-4` (so the claimed threshold
mandates standardizing, here to `x = 13`), yet the code takes the
`σ < 10e-4` branch and returns `1 - chi2cdf 0` — with `chi2cdf` the
identity, `1` instead of `1 - 13`. -/
theorem fast_sigma_threshold_counterexample :
    fastPValue baseCorner (fun m => m) ⟨"dcorrx", 0⟩ (fun v => v) x40 zero40
        (1 + 1/1000) 40 5 [0, 0] (1/4000) =
      .ok (1, [(MKey.null_distribution,
        MetaVal.listQ [1, 1 + 1/2000, 1, 1 + 1/2000])]) ∧
    listVar [1, 1 + 1/2000, 1, 1 + 1/2000] = (1/4000) ^ 2 ∧
    (0 : ℚ) ≤ 1/4000 ∧
    (1 : ℚ)/10000 ≤ 1/4000 ∧
    ((x40.rows / fastEffSS 0 x40.rows 5 : ℕ) : ℚ) *
        ((1 + 1/1000) - listMean [1, 1 + 1/2000, 1, 1 + 1/2000]) / (1/4000) + 1 = 13 ∧
    (1 : ℚ) ≠ 1 - 13 :=
  ⟨by with_unfolding_all rfl, by with_unfolding_all rfl, by norm_num,
   by norm_num, by with_unfolding_all rfl, by norm_num⟩

/-- Appending runs of `bs` consecutive indices yields `bs` indices per
start offset. -/
theorem concatRuns_length (bs : ℕ) (s : List ℕ) :
    (concatRuns bs s).length = s.length * bs := by
  induction s with
  | nil => simp [concatRuns]
  | cons a t ih =>
    simp [concatRuns, ih]
    ring

/-- Claim C9 (amended): each exact-mode replicate draws `n // block_size + 1`
block-start offsets — the time-series wrapper with replacement uniformly
from `[0, n)` with runs reduced modulo `n`, while the MGC_TS lag test draws
a random permutation of `{0, ..., n // block_size}` as the start sequence
(no modulo reduction); runs of `block_size` consecutive indices are
concatenated and truncated to length `n` (the wrapper's index sequence has
exactly `n` entries, all below `n`), the index sequence is applied
identically to rows and columns of `Y`, and `block_size` defaults to
`ceil(sqrt(n))`. -/
theorem block_permutation_mechanism_amended :
    (∀ n bs s, wrapperDraw n bs s → 0 < bs →
      (buildPermIdx n bs s).length = n ∧ ∀ e ∈ buildPermIdx n bs s, e < n) ∧
    (∀ (cdm : DataMat → DataMat) (cfg : TSConfig) (X Y : DataMat),
      X.rows = Y.rows → cfg.maxLag + 4 < X.rows →
      validateInput cdm cfg X Y none =
        .ok (toDistance cdm X, toDistance cdm Y, ceilSqrt X.rows,
             cfg.maxLag, X.rows)) ∧
    (∀ n bs s, mgcTsDraw n bs s →
      s.length = n / bs + 1 ∧ ∀ t ∈ s, t ≤ n / bs) ∧
    (∀ (Y : Mat) (idx : List ℕ) (a b : ℕ),
      permuteMat Y idx a b = Y (idx.getD a 0) (idx.getD b 0)) ∧
    (∀ n, n ≤ ceilSqrt n * ceilSqrt n ∧ ∀ b, n ≤ b * b → ceilSqrt n ≤ b) := by
  refine ⟨?_, ?_, ?_, ?_, ?_⟩
  · rintro n bs s ⟨hslen, _hmem⟩ hbs
    constructor
    · have hconcat : (concatRuns bs s).length = (n / bs + 1) * bs := by
        rw [concatRuns_length, hslen]
      have hge : n ≤ (n / bs + 1) * bs := by
        have h1 : bs * (n / bs) + n % bs = n := Nat.div_add_mod n bs
        have h2 : n % bs < bs := Nat.mod_lt n hbs
        have h3 : (n / bs + 1) * bs = bs * (n / bs) + bs := by ring
        rw [h3]
        omega
      simp [buildPermIdx, List.length_take, hconcat]
      omega
    · intro e he
      obtain ⟨x, hx, rfl⟩ := List.mem_map.1 he
      rcases Nat.eq_zero_or_pos n with h0 | hpos
      · subst h0
        simp at hx
      · exact Nat.mod_lt x hpos
  · intro cdm cfg X Y h1 h2
    exact validateInput_ok cdm cfg X Y none h1 h2
  · intro n bs s hperm
    constructor
    · rw [hperm.length_eq, List.length_range]
    · intro t ht
      have := List.mem_range.1 (hperm.mem_iff.1 ht)
      omega
  · intro Y idx a b
    rfl
  · intro n
    unfold ceilSqrt
    by_cases h : Nat.sqrt n * Nat.sqrt n = n
    · rw [if_pos h]
      refine ⟨le_of_eq h.symm, ?_⟩
      intro b hb
      calc Nat.sqrt n ≤ Nat.sqrt (b * b) := Nat.sqrt_le_sqrt hb
        _ = b := Nat.sqrt_eq b
    · rw [if_neg h]
      refine ⟨Nat.le_of_lt (Nat.lt_succ_sqrt n), ?_⟩
      intro b hb
      by_contra hcon
      have hb' : b ≤ Nat.sqrt n := by omega
      have hmul : b * b ≤ Nat.sqrt n * Nat.sqrt n := Nat.mul_le_mul hb' hb'
      have hle : Nat.sqrt n * Nat.sqrt n ≤ n := Nat.sqrt_le n
      exact h (le_antisymm hle (le_trans hb hmul))

/-- Witness for C9: the wrapper-draw conjunct instantiated at `n = 10`,
`block_size = 4`, starts `[0, 0, 0]`. -/
theorem block_permutation_mechanism_witness :
    (buildPermIdx 10 4 [0, 0, 0]).length = 10 :=
  ((block_permutation_mechanism_amended).1 10 4 [0, 0, 0] (by decide)
    (by decide)).1

/-- Counterexample for C9: at `n = 10`, `block_size = 4`, the wrapper draws
3 = `n // block_size + 1` offsets, not the claimed `ceil(n/block_size)+1 = 4`;
and the MGC_TS start sequence is a permutation of `{0, 1, 2}`, which
neither has the claimed length nor covers the claimed range `[0, 10)` (a
claimed draw such as `[9,9,9,9]` is impossible for MGC_TS). -/
theorem block_start_count_counterexample :
    wrapperDraw 10 4 [0, 0, 0] ∧ ¬ claimDraw 10 4 [0, 0, 0] ∧
    mgcTsDraw 10 4 [2, 0, 1] ∧ ¬ claimDraw 10 4 [2, 0, 1] ∧
    claimDraw 10 4 [9, 9, 9, 9] ∧ ¬ mgcTsDraw 10 4 [9, 9, 9, 9] := by
  refine ⟨by decide, by decide, by decide, by decide, by decide, by decide⟩

/-- Folding repeated addition is summation. -/
theorem foldl_add_eq_sum (f : ℕ → ℚ) (c : ℚ) (l : List ℕ) :
    l.foldl (fun a x => a + f x) c = c + (l.map f).sum := by
  induction l generalizing c with
  | nil => simp
  | cons a t ih =>
    simp [ih]
    ring

/-- Claim C10: `MGC_TS.test_statistic` applies no non-negativity floor to
any per-lag contribution — it returns `n` times the lag-0 base statistic
plus, for each lag `j` in `[1, max_lag]`, `(1 - j/(sqrt(n)*(max_lag+1)))^2
* (n-j)` times the base statistic in each of the two lag directions — and
for some inputs (e.g. a base statistic constantly `-1/2`, inside the
documented `[-1, 1]` range of the MGC statistic) the returned statistic is
negative. -/
theorem mgc_ts_statistic_formula_no_floor :
    (∀ (base : ℕ → Mat → Mat → ℚ) (cdm : DataMat → DataMat) (p : ℚ)
        (maxLag : ℕ) (X Y : DataMat), X.rows = Y.rows →
      mgcTsStatistic base cdm p maxLag X Y =
        .ok (mgcTsClaimFormula base p maxLag X.rows
              (toDistance cdm X).entry (toDistance cdm Y).entry,
             [(MKey.dist_mtx_X, MetaVal.mat (matLists (toDistance cdm X))),
              (MKey.dist_mtx_Y, MetaVal.mat (matLists (toDistance cdm Y)))])) ∧
    mgcTsStatistic (fun _ _ _ => -1/2) (fun m => m) 2 1 zero4 zero4 =
      .ok (-59/16, [(MKey.dist_mtx_X, MetaVal.mat (matLists zero4)),
                    (MKey.dist_mtx_Y, MetaVal.mat (matLists zero4))]) ∧
    (-59/16 : ℚ) < 0 := by
  refine ⟨?_, by with_unfolding_all rfl, by norm_num⟩
  intro base cdm p maxLag X Y hshape
  unfold mgcTsStatistic
  rw [if_neg (fun hc => hc hshape)]
  apply congrArg Except.ok
  refine Prod.ext ?_ rfl
  show (List.range maxLag).foldl _ _ = _
  have hfun : (fun (acc : ℚ) (jm : ℕ) =>
      let j : ℕ := jm + 1
      let w := (1 - (j : ℚ) / (p * ((maxLag : ℚ) + 1))) ^ 2
      acc + w * base (X.rows - j) (subMat (toDistance cdm X).entry j)
            (toDistance cdm Y).entry * ((X.rows : ℚ) - (j : ℚ))
          + w * base (X.rows - j) (toDistance cdm X).entry
            (subMat (toDistance cdm Y).entry j) * ((X.rows : ℚ) - (j : ℚ))) =
      (fun acc jm => acc +
        ((1 - ((jm + 1 : ℕ) : ℚ) / (p * ((maxLag : ℚ) + 1))) ^ 2 *
          base (X.rows - (jm + 1)) (subMat (toDistance cdm X).entry (jm + 1))
            (toDistance cdm Y).entry * ((X.rows : ℚ) - ((jm + 1 : ℕ) : ℚ)) +
         (1 - ((jm + 1 : ℕ) : ℚ) / (p * ((maxLag : ℚ) + 1))) ^ 2 *
          base (X.rows - (jm + 1)) (toDistance cdm X).entry
            (subMat (toDistance cdm Y).entry (jm + 1)) * ((X.rows : ℚ) - ((jm + 1 : ℕ) : ℚ)))) := by
    funext acc jm
    push_cast
    ring
  rw [hfun, foldl_add_eq_sum]
  unfold mgcTsClaimFormula
  congr 1
  rw [List.range'_eq_map_range, List.map_map]
  apply congrArg
  apply List.map_congr_left
  intro jm _
  have h1 : 1 + jm = jm + 1 := Nat.add_comm 1 jm
  simp only [Function.comp_apply, h1]
  push_cast
  ring

/-- Witness for C10: the formula conjunct instantiated on a concrete call. -/
theorem mgc_ts_statistic_formula_witness :
    mgcTsStatistic baseZeroQ (fun m => m) 2 1 zero4 zero4 =
      .ok (mgcTsClaimFormula baseZeroQ 2 1 zero4.rows
            (toDistance (fun m => m) zero4).entry
            (toDistance (fun m => m) zero4).entry,
           [(MKey.dist_mtx_X, MetaVal.mat (matLists (toDistance (fun m => m) zero4))),
            (MKey.dist_mtx_Y, MetaVal.mat (matLists (toDistance (fun m => m) zero4)))]) :=
  (mgc_ts_statistic_formula_no_floor).1 baseZeroQ (fun m => m) 2 1 zero4 zero4 rfl

end Mgc
